import Mathlib

/-!
Verification of the event-deduplication core of the `fargoings` event
aggregator.  The definitions below are a shallow embedding of the
TypeScript sources:

* `src/dedup/normalize.ts` — text normalization, Levenshtein distance,
  string similarity, substring containment, token overlap, haversine
  distance;
* `src/dedup/matcher.ts` — per-dimension scoring (`scoreTitles`,
  `scoreVenues`, `scoreTimes`, `scoreGeo`), `scoreMatch`, `findMatches`;
* `src/db/database.ts` — the materialization pipeline
  (`getMatches`, `getDeduplicatedEvents`, `rebuildDisplayEvents`) over an
  in-memory model of the SQLite state.

JavaScript numbers are modelled as exact rationals (`ℚ`); the
transcendental haversine computation is modelled over `ℝ`.  Strings are
Lean `String`s (Unicode code points; JS UTF-16 length agrees on the
basic multilingual plane, which covers all data this program handles).
-/

namespace Fargoings

/-- Characters matched by the JavaScript regex class `\s` (the subset
relevant to this code base: ASCII whitespace and no-break space). -/
def isJsSpace (c : Char) : Bool :=
  c = ' ' || c = '\t' || c = '\n' || c = '\r' || c = '\x0b' || c = '\x0c' || c = ' '

/-- Named/numeric HTML entities recognised by the model of the external
`he` decoder: each pattern is the character list following an ampersand,
paired with the decoded character. -/
def entityTable : List (List Char × Char) :=
  [(("amp;").data, '&'), (("lt;").data, '<'), (("gt;").data, '>'),
   (("quot;").data, '"'), (("apos;").data, '\''), (("#39;").data, '\''),
   (("nbsp;").data, ' ')]

/-- Try to match one of the known entities at the start of `cs` (the text
right after a `&`); returns the decoded character and the number of
characters consumed after the ampersand. -/
def matchEntity (cs : List Char) : Option (Char × Nat) :=
  entityTable.findSome? (fun p => if p.1.isPrefixOf cs then some (p.2, p.1.length) else none)

/-- Fuel-driven scan decoding HTML entities.  The fuel is the length of
the remaining input; every step consumes at least one character, so the
initial fuel `cs.length` is always sufficient. -/
def decodeCharsFuel : Nat → List Char → List Char
  | 0, cs => cs
  | _ + 1, [] => []
  | fuel + 1, c :: rest =>
    if c = '&' then
      match matchEntity rest with
      | some (d, n) => d :: decodeCharsFuel fuel (rest.drop n)
      | none => c :: decodeCharsFuel fuel rest
    else c :: decodeCharsFuel fuel rest

/-- Modelled from the spec: `decodeHtmlEntities` delegates to the external
`he` library's `decode`; the model decodes the standard named entities
(and `&#39;`), leaving all other text unchanged. -/
def decodeHtmlEntities (s : String) : String :=
  ⟨decodeCharsFuel s.data.length s.data⟩

/-- `.replace(/[–—]/g, '-')` from `normalizeText` (the source's quote and
apostrophe replacement classes contain only the ASCII characters
themselves, so those two replaces are identities). -/
def normalizeDashes (c : Char) : Char :=
  if c = '–' then '-' else if c = '—' then '-' else c

/-- `.replace(/\s+/g, ' ')`: collapse every whitespace run to a single
space.  The boolean records whether the previous character was
whitespace. -/
def collapseWs : List Char → Bool → List Char
  | [], _ => []
  | c :: rest, prevWs =>
    if isJsSpace c then
      if prevWs then collapseWs rest true else ' ' :: collapseWs rest true
    else c :: collapseWs rest false

/-- JavaScript `String.prototype.trim`. -/
def jsTrim (cs : List Char) : List Char :=
  ((cs.dropWhile isJsSpace).reverse.dropWhile isJsSpace).reverse

/-- `normalizeText` from `src/dedup/normalize.ts`: decode entities, lower
case, unify dashes, collapse whitespace, trim.  (`Char.toLower` models the
ASCII case folding relevant here.) -/
def normalizeText (text : String) : String :=
  ⟨jsTrim (collapseWs (((decodeHtmlEntities text).data.map Char.toLower).map normalizeDashes) false)⟩

/-- JavaScript regex `\w`: ASCII letters, digits and underscore. -/
def isWordChar (c : Char) : Bool :=
  (('a' ≤ c && c ≤ 'z') || ('A' ≤ c && c ≤ 'Z') || ('0' ≤ c && c ≤ '9') || c = '_')

/-- `.replace(/[^\w\s'-]/g, ' ')` from `tokenize`. -/
def sanitizeTokenChar (c : Char) : Char :=
  if isWordChar c || isJsSpace c || c = '\'' || c = '-' then c else ' '

/-- Split into the chunks delimited by whitespace (`split(/\s+/)`); empty
chunks may occur at the ends, matching the JavaScript behaviour, and are
discarded by the length filter in `tokenize`. -/
def splitWordsGo : List Char → List Char → List (List Char)
  | [], acc => [acc.reverse]
  | c :: rest, acc =>
    if isJsSpace c then acc.reverse :: splitWordsGo rest []
    else splitWordsGo rest (c :: acc)

def splitWords (cs : List Char) : List (List Char) :=
  splitWordsGo cs []

/-- `tokenize` from `src/dedup/normalize.ts`: normalize, strip punctuation
except apostrophes/hyphens, split on whitespace, drop tokens of length
`≤ 1`. -/
def tokenize (text : String) : List String :=
  ((splitWords ((normalizeText text).data.map sanitizeTokenChar)).map
    (fun cs => String.mk cs)).filter (fun t => t.length > 1)

/-- One cell of the dynamic-programming matrix of `levenshteinDistance`
(`src/dedup/normalize.ts`): `levCell bs as fuel i j` is `matrix[i][j]`,
the edit distance between the first `i` characters of `b` and the first
`j` characters of `a`.  The loops of the source fill this matrix bottom
up; the recurrence here is exactly the cell formula of the source
(`matrix[i][0] = i`, `matrix[0][j] = j`, and the substitution /
insertion / deletion minimum).  The fuel argument (`i + j` suffices)
makes the recursion structural. -/
def levCell (bs as : List Char) : Nat → Nat → Nat → Nat
  | _, i, 0 => i
  | _, 0, j => j
  | 0, _, _ => 0
  | fuel + 1, i + 1, j + 1 =>
    if bs.getD i ' ' = as.getD j ' ' then levCell bs as fuel i j
    else
      min (levCell bs as fuel i j + 1)
        (min (levCell bs as fuel (i + 1) j + 1) (levCell bs as fuel i (j + 1) + 1))

/-- `levenshteinDistance(a, b)` from `src/dedup/normalize.ts`: the bottom
right cell `matrix[b.length][a.length]` of the dynamic-programming
matrix.  Note the source applies it to its arguments as given — it does
not normalize them itself. -/
def levenshteinDistance (a b : String) : Nat :=
  levCell b.data a.data (b.data.length + a.data.length) b.data.length a.data.length

/-- `stringSimilarity` from `src/dedup/normalize.ts`: Levenshtein-based
ratio over the normalized strings. -/
def stringSimilarity (a b : String) : ℚ :=
  let normA := normalizeText a
  let normB := normalizeText b
  if normA = normB then 1
  else if normA.length = 0 || normB.length = 0 then 0
  else 1 - (levenshteinDistance normA normB : ℚ) / (max normA.length normB.length : ℚ)

/-- `containsSubstring` from `src/dedup/normalize.ts`: after
normalization, does either string contain the other? -/
def containsSubstring (a b : String) : Bool :=
  let normA := (normalizeText a).data
  let normB := (normalizeText b).data
  decide (normB <:+: normA) || decide (normA <:+: normB)

/-- `tokenOverlap` from `src/dedup/normalize.ts`: intersection size over
the smaller token-set size (JS `Set` modelled by `eraseDups`, which keeps
first occurrences; only sizes and membership matter). -/
def tokenOverlap (a b : String) : ℚ :=
  let tokensA := (tokenize a).eraseDups
  let tokensB := (tokenize b).eraseDups
  if tokensA.length = 0 || tokensB.length = 0 then 0
  else
    let intersection := (tokensA.filter (fun t => tokensB.contains t)).length
    (intersection : ℚ) / (min tokensA.length tokensB.length : ℚ)

/-- JavaScript `Math.atan2` (signed zeros and NaN aside), in terms of
`Real.arctan`. -/
noncomputable def atan2 (y x : ℝ) : ℝ :=
  if 0 < x then Real.arctan (y / x)
  else if x < 0 ∧ 0 ≤ y then Real.arctan (y / x) + Real.pi
  else if x < 0 ∧ y < 0 then Real.arctan (y / x) - Real.pi
  else if x = 0 ∧ 0 < y then Real.pi / 2
  else if x = 0 ∧ y < 0 then -(Real.pi / 2)
  else 0

/-- `geoDistance` from `src/dedup/normalize.ts`: haversine great-circle
distance in meters, Earth radius `6371e3`. -/
noncomputable def geoDistance (lat1 lng1 lat2 lng2 : ℝ) : ℝ :=
  let R : ℝ := 6371000
  let phi1 := lat1 * Real.pi / 180
  let phi2 := lat2 * Real.pi / 180
  let dphi := (lat2 - lat1) * Real.pi / 180
  let dlambda := (lng2 - lng1) * Real.pi / 180
  let a := Real.sin (dphi / 2) * Real.sin (dphi / 2) +
    Real.cos phi1 * Real.cos phi2 * Real.sin (dlambda / 2) * Real.sin (dlambda / 2)
  let c := 2 * atan2 (Real.sqrt a) (Real.sqrt (1 - a))
  R * c

/-- JavaScript `Math.round`: round half away from zero is `⌊x + 1/2⌋` for
the nonnegative quantities used here. -/
def jsRoundQ (q : ℚ) : ℤ := ⌊q + 1 / 2⌋

noncomputable def jsRoundR (x : ℝ) : ℤ := ⌊x + 1 / 2⌋

/-- `scoreTitles` falls through to this logic when the substring branch
does not fire: token overlap, Levenshtein similarity, moderate overlap,
low-similarity fallback. -/
def scoreTitlesRest (title1 title2 : String) : ℚ × String :=
  let overlap := tokenOverlap title1 title2
  if overlap > 4 / 5 then
    (9 / 10, "high token overlap (" ++ toString (jsRoundQ (overlap * 100)) ++ "%)")
  else
    let similarity := stringSimilarity title1 title2
    if similarity > 17 / 20 then
      (similarity, "string similarity (" ++ toString (jsRoundQ (similarity * 100)) ++ "%)")
    else if overlap > 3 / 5 then
      (overlap * (17 / 20), "moderate token overlap (" ++ toString (jsRoundQ (overlap * 100)) ++ "%)")
    else (max similarity (overlap * (7 / 10)), "low similarity")

/-- `scoreTitles` from `src/dedup/matcher.ts`.  The shorter/longer choice
uses the raw string lengths while the ratio divides the normalized
lengths, exactly as in the source. -/
def scoreTitles (title1 title2 : String) : ℚ × String :=
  if containsSubstring title1 title2 then
    let shorter := if title1.length < title2.length then title1 else title2
    let longer := if title1.length < title2.length then title2 else title1
    let ratio : ℚ := ((normalizeText shorter).length : ℚ) / ((normalizeText longer).length : ℚ)
    if ratio > 2 / 5 then (19 / 20, "title substring match")
    else scoreTitlesRest title1 title2
  else scoreTitlesRest title1 title2

/-- `scoreVenues` from `src/dedup/matcher.ts`.  `!venue` is JavaScript
falsiness on `string | null`: `null` or the empty string. -/
def scoreVenues (venue1 venue2 : Option String) : ℚ × String :=
  if venue1.getD "" = "" || venue2.getD "" = "" then (1 / 2, "venue unknown")
  else
    let v1 := venue1.getD ""
    let v2 := venue2.getD ""
    if containsSubstring v1 v2 then (1, "venue name match")
    else
      let overlap := tokenOverlap v1 v2
      if overlap > 1 / 2 then
        (overlap, "venue token overlap (" ++ toString (jsRoundQ (overlap * 100)) ++ "%)")
      else
        let similarity := stringSimilarity v1 v2
        (similarity, "venue similarity (" ++ toString (jsRoundQ (similarity * 100)) ++ "%)")

/-- JavaScript `Number(s)` restricted to the decimal-digit strings this
code feeds it (`HH` and `MM` parts of well-formed times); other inputs
are modelled as 0. -/
def jsNumberNat (s : String) : ℕ := s.toNat?.getD 0

/-- `scoreTimes` from `src/dedup/matcher.ts`: neutral when either time is
falsy, else compare `HH:MM` prefixes, allowing a 30 minute difference. -/
def scoreTimes (time1 time2 : Option String) : ℚ × String :=
  if time1.getD "" = "" || time2.getD "" = "" then (1 / 2, "time unknown")
  else
    let t1 := (time1.getD "").take 5
    let t2 := (time2.getD "").take 5
    if t1 = t2 then (1, "exact time match")
    else
      let parts1 := t1.splitOn (":")
      let parts2 := t2.splitOn (":")
      let mins1 : ℤ := jsNumberNat (parts1.getD 0 "") * 60 + jsNumberNat (parts1.getD 1 "")
      let mins2 : ℤ := jsNumberNat (parts2.getD 0 "") * 60 + jsNumberNat (parts2.getD 1 "")
      if (mins1 - mins2).natAbs ≤ 30 then (4 / 5, "time within 30 min")
      else (0, "different times")

/-- `scoreGeo` from `src/dedup/matcher.ts`.  `!lat` is JavaScript
falsiness on `number | null`: `null` or `0` (`o.getD 0 = 0` captures
both). -/
noncomputable def scoreGeo (lat1 lng1 lat2 lng2 : Option ℚ) : ℚ × String :=
  if lat1.getD 0 = 0 || lng1.getD 0 = 0 || lat2.getD 0 = 0 || lng2.getD 0 = 0 then
    (1 / 2, "geo unknown")
  else
    let distance := geoDistance (lat1.getD 0 : ℚ) (lng1.getD 0 : ℚ) (lat2.getD 0 : ℚ) (lng2.getD 0 : ℚ)
    if distance < 100 then (1, "same location (<100m)")
    else if distance < 500 then (4 / 5, "nearby (<500m)")
    else if distance < 1000 then (1 / 2, "within 1km")
    else (0, "far apart (" ++ toString (jsRoundR distance) ++ "m)")

/-- `StoredEvent` from `src/types/event.ts` (the row shape of the
`events` table; `id` is the SQLite rowid). -/
structure StoredEvent where
  id : ℕ
  eventId : String
  title : String
  url : String
  location : Option String
  date : String
  startTime : Option String
  startDate : String
  endDate : String
  latitude : Option ℚ
  longitude : Option ℚ
  city : Option String
  imageUrl : Option String
  categories : String
  source : String
  createdAt : String
  updatedAt : String
deriving DecidableEq

/-- `MatchScore` from `src/dedup/matcher.ts`. -/
structure MatchScore where
  eventId1 : String
  eventId2 : String
  titleScore : ℚ
  venueScore : ℚ
  timeScore : ℚ
  geoScore : ℚ
  totalScore : ℚ
  confidence : String
  reasons : List String
deriving DecidableEq

/-- `MatchWeights` from `src/dedup/matcher.ts`. -/
structure MatchWeights where
  title : ℚ
  venue : ℚ
  time : ℚ
  geo : ℚ
deriving DecidableEq

def DEFAULT_WEIGHTS : MatchWeights :=
  { title := 1 / 2, venue := 1 / 4, time := 3 / 20, geo := 1 / 10 }

/-- `scoreMatch` from `src/dedup/matcher.ts`: the four dimension scores,
their weighted total, the confidence classification and the reason
strings. -/
noncomputable def scoreMatch (event1 event2 : StoredEvent) (weights : MatchWeights) : MatchScore :=
  let titleResult := scoreTitles event1.title event2.title
  let venueResult := scoreVenues event1.location event2.location
  let timeResult := scoreTimes event1.startTime event2.startTime
  let geoResult := scoreGeo event1.latitude event1.longitude event2.latitude event2.longitude
  let totalScore := titleResult.1 * weights.title + venueResult.1 * weights.venue +
    timeResult.1 * weights.time + geoResult.1 * weights.geo
  let confidence : String :=
    if totalScore ≥ 17 / 20 ∧ titleResult.1 ≥ 4 / 5 then "high"
    else if totalScore ≥ 7 / 10 ∧ titleResult.1 ≥ 3 / 5 then "medium"
    else "low"
  { eventId1 := event1.eventId
    eventId2 := event2.eventId
    titleScore := titleResult.1
    venueScore := venueResult.1
    timeScore := timeResult.1
    geoScore := geoResult.1
    totalScore := totalScore
    confidence := confidence
    reasons := ["Title: " ++ titleResult.2, "Venue: " ++ venueResult.2,
      "Time: " ++ timeResult.2, "Geo: " ++ geoResult.2] }

/-- JavaScript `Map.prototype.set`: update the existing entry in place,
else append a fresh one. -/
def mapSet {α : Type} (m : List (String × α)) (k : String) (v : α) : List (String × α) :=
  if m.any (fun p => p.1 = k) then m.map (fun p => if p.1 = k then (k, v) else p)
  else m ++ [(k, v)]

/-- JavaScript `Map.prototype.get`. -/
def mapGet {α : Type} (m : List (String × α)) (k : String) : Option α :=
  (m.find? (fun p => p.1 = k)).map (fun p => p.2)

/-- The date-bucketing loop of `findMatches`: group the second collection
by exact calendar-date string. -/
def groupByDate (events : List StoredEvent) : List (String × List StoredEvent) :=
  events.foldl (fun acc e => mapSet acc e.date ((mapGet acc e.date).getD [] ++ [e])) []

/-- The relation by which `findMatches` sorts its output
(`(a, b) => b.totalScore - a.totalScore`, i.e. descending total score;
ES2019 `Array.prototype.sort` is stable, modelled by stable insertion
sort). -/
def matchScoreGE (a b : MatchScore) : Prop := b.totalScore ≤ a.totalScore

instance : DecidableRel matchScoreGE :=
  fun a b => inferInstanceAs (Decidable (b.totalScore ≤ a.totalScore))

instance : IsTotal MatchScore matchScoreGE :=
  ⟨fun a b => le_total b.totalScore a.totalScore⟩

instance : IsTrans MatchScore matchScoreGE :=
  ⟨fun _ _ _ h1 h2 => le_trans h2 h1⟩

/-- `findMatches` from `src/dedup/matcher.ts`: bucket the second source
by date, score every same-date pair with the default weights, keep the
pairs with total score `≥ minScore`, sort by descending total score. -/
noncomputable def findMatches (source1Events source2Events : List StoredEvent)
    (minScore : ℚ) : List MatchScore :=
  let source2ByDate := groupByDate source2Events
  let collected := source1Events.foldl (fun acc event1 =>
    acc ++ ((mapGet source2ByDate event1.date).getD []).filterMap (fun event2 =>
      let score := scoreMatch event1 event2 DEFAULT_WEIGHTS
      if score.totalScore ≥ minScore then some score else none)) []
  List.insertionSort matchScoreGE collected

/-- `EventMatch` from `src/db/database.ts` (a row of the `event_matches`
table). -/
structure EventMatch where
  id : ℕ
  eventId1 : String
  eventId2 : String
  score : ℚ
  confidence : String
  reasons : String
  matchType : String
  createdAt : String
deriving DecidableEq

/-- The content of one `display_events` row as inserted by
`rebuildDisplayEvents` (the eleven explicitly inserted columns; the
DB-generated rowid and timestamps belong to the storage layer, not to
the pipeline). -/
structure DisplayRow where
  eventId : String
  title : String
  url : String
  altUrl : Option String
  location : Option String
  date : String
  startTime : Option String
  city : Option String
  imageUrl : Option String
  categories : String
  source : String
deriving DecidableEq

/-- In-memory model of the SQLite state seen by the pipeline: the
`events` table (read-only to the core), the `event_matches` table and the
`display_events` table. -/
structure DB where
  events : List StoredEvent
  eventMatches : List EventMatch
  displayEvents : List DisplayRow
deriving DecidableEq

/-- `StoredEvent & { altUrl?, altSource? }`, the element type returned by
`getDeduplicatedEvents`. -/
structure DedupEvent where
  event : StoredEvent
  altUrl : Option String
  altSource : Option String
deriving DecidableEq

/-- `COALESCE(startTime, '23:59:59')` from the event ordering query. -/
def coalesceTime (e : StoredEvent) : String := e.startTime.getD "23:59:59"

/-- `ORDER BY date ASC, COALESCE(startTime, '23:59:59') ASC, id ASC` from
`getDeduplicatedEvents` (SQLite compares TEXT bytewise, which agrees
with the lexicographic order on code points for UTF-8). -/
def eventOrder (e1 e2 : StoredEvent) : Prop :=
  e1.date < e2.date ∨
    (e1.date = e2.date ∧
      (coalesceTime e1 < coalesceTime e2 ∨
        (coalesceTime e1 = coalesceTime e2 ∧ e1.id ≤ e2.id)))

instance : DecidableRel eventOrder := fun e1 e2 => by
  unfold eventOrder; infer_instance

instance : IsTotal StoredEvent eventOrder := by
  constructor
  intro a b
  rcases lt_trichotomy a.date b.date with h | h | h
  · exact Or.inl (Or.inl h)
  · rcases lt_trichotomy (coalesceTime a) (coalesceTime b) with h' | h' | h'
    · exact Or.inl (Or.inr ⟨h, Or.inl h'⟩)
    · rcases le_total a.id b.id with h'' | h''
      · exact Or.inl (Or.inr ⟨h, Or.inr ⟨h', h''⟩⟩)
      · exact Or.inr (Or.inr ⟨h.symm, Or.inr ⟨h'.symm, h''⟩⟩)
    · exact Or.inr (Or.inr ⟨h.symm, Or.inl h'⟩)
  · exact Or.inr (Or.inl h)

instance : IsTrans StoredEvent eventOrder := by
  constructor
  intro a b c hab hbc
  rcases hab with h1 | ⟨h1, h1'⟩
  · rcases hbc with h2 | ⟨h2, _⟩
    · exact Or.inl (h1.trans h2)
    · exact Or.inl (h2 ▸ h1)
  · rcases hbc with h2 | ⟨h2, h2'⟩
    · exact Or.inl (h1 ▸ h2)
    · refine Or.inr ⟨h1.trans h2, ?_⟩
      rcases h1' with h3 | ⟨h3, h3'⟩
      · rcases h2' with h4 | ⟨h4, _⟩
        · exact Or.inl (h3.trans h4)
        · exact Or.inl (h4 ▸ h3)
      · rcases h2' with h4 | ⟨h4, h4'⟩
        · exact Or.inl (h3 ▸ h4)
        · exact Or.inr ⟨h3.trans h4, h3'.trans h4'⟩

/-- The events query of `getDeduplicatedEvents`:
`SELECT * FROM events ORDER BY date, COALESCE(startTime,'23:59:59'), id`.
Insertion sort is stable; since the rowid `id` is unique in an actual
database the sorted sequence is the unique one in any case. -/
def sortEvents (events : List StoredEvent) : List StoredEvent :=
  List.insertionSort eventOrder events

/-- `ORDER BY score DESC` from `getMatches`, modelled as a stable sort. -/
def matchGE (m1 m2 : EventMatch) : Prop := m2.score ≤ m1.score

instance : DecidableRel matchGE :=
  fun m1 m2 => inferInstanceAs (Decidable (m2.score ≤ m1.score))

instance : IsTotal EventMatch matchGE := ⟨fun a b => le_total b.score a.score⟩

instance : IsTrans EventMatch matchGE := ⟨fun _ _ _ h1 h2 => le_trans h2 h1⟩

def confidenceLevels : List String := ["low", "medium", "high"]

/-- `getMatches(minConfidence)` from `src/db/database.ts`: keep the rows
whose confidence is at or above `minConfidence` in
`['low','medium','high']`, ordered by descending score.  (The pipeline
only ever calls it with `'medium'`.) -/
def getMatches (db : DB) (minConfidence : String) : List EventMatch :=
  let allowed := confidenceLevels.drop (confidenceLevels.findIdx (fun c => c = minConfidence))
  List.insertionSort matchGE (db.eventMatches.filter (fun m => allowed.contains m.confidence))

/-- `SELECT url, source FROM events WHERE eventId = ?` (at most one row:
`eventId` is UNIQUE). -/
def lookupEventUrlSource (db : DB) (eid : String) : Option (String × String) :=
  (db.events.find? (fun e => e.eventId = eid)).map (fun e => (e.url, e.source))

/-- The alt-URL map building loop of `getDeduplicatedEvents`: walk the
`medium`-and-above matches in descending-score order; for each edge whose
first member resolves to a known event, set
`eventId2 ↦ (url, source)` (later iterations overwrite earlier ones). -/
def buildAltMap (db : DB) : List (String × (String × String)) :=
  (getMatches db "medium").foldl (fun acc m =>
    match lookupEventUrlSource db m.eventId1 with
    | some us => mapSet acc m.eventId2 us
    | none => acc) []

/-- The exclusion test of `getDeduplicatedEvents`: identifiers appearing
as `eventId1` of a `high` or `medium` edge. -/
def excludeIds (db : DB) : List String :=
  (db.eventMatches.filter (fun m => m.confidence = "high" || m.confidence = "medium")).map
    (fun m => m.eventId1)

/-- `getDeduplicatedEvents(limit, offset)` from `src/db/database.ts`. -/
def getDeduplicatedEvents (db : DB) (limit offset : ℕ) : List DedupEvent :=
  let matchMap := buildAltMap db
  let result := (sortEvents db.events).filterMap (fun e =>
    if (excludeIds db).contains e.eventId then none
    else
      let alt := mapGet matchMap e.eventId
      some { event := e, altUrl := alt.map (fun p => p.1), altSource := alt.map (fun p => p.2) })
  (result.drop offset).take limit

/-- The insert statement of `rebuildDisplayEvents`; `event.altUrl || null`
maps an absent or empty alternate URL to NULL. -/
def toDisplayRow (d : DedupEvent) : DisplayRow :=
  { eventId := d.event.eventId
    title := d.event.title
    url := d.event.url
    altUrl := match d.altUrl with
      | some u => if u = "" then none else some u
      | none => none
    location := d.event.location
    date := d.event.date
    startTime := d.event.startTime
    city := d.event.city
    imageUrl := d.event.imageUrl
    categories := d.event.categories
    source := d.event.source }

/-- `rebuildDisplayEvents` from `src/db/database.ts`: materialize
`getDeduplicatedEvents(getTotalCount(), 0)`, replace the whole
`display_events` table with it in one transaction, and return the row
count. -/
def rebuildDisplayEvents (db : DB) : DB × ℕ :=
  let deduplicatedEvents := getDeduplicatedEvents db db.events.length 0
  ({ db with displayEvents := deduplicatedEvents.map toDisplayRow }, deduplicatedEvents.length)

/-! Concrete fixtures used by the counterexamples and witnesses. -/

/-- A minimal event record: only the fields relevant to the pipeline are
distinguished between fixtures. -/
def evA : StoredEvent :=
  { id := 1, eventId := "a", title := "Alpha", url := "https://s1/a", location := none,
    date := "2025-10-04", startTime := none, startDate := "2025-10-04", endDate := "2025-10-04",
    latitude := none, longitude := none, city := none, imageUrl := none, categories := "[]",
    source := "s1", createdAt := "", updatedAt := "" }

def evB : StoredEvent :=
  { evA with id := 2, eventId := "b", title := "Beta", url := "https://s2/b", source := "s2" }

def evX : StoredEvent :=
  { evA with id := 3, eventId := "x", title := "Xi", url := "https://s3/x", source := "s3" }

/-- A `high`-confidence edge `a → x` with score 0.9. -/
def mAX : EventMatch :=
  { id := 1, eventId1 := "a", eventId2 := "x", score := 9 / 10, confidence := "high",
    reasons := "[]", matchType := "auto", createdAt := "" }

/-- A `medium`-confidence edge `b → x` with score 0.75. -/
def mBX : EventMatch :=
  { id := 2, eventId1 := "b", eventId2 := "x", score := 3 / 4, confidence := "medium",
    reasons := "[]", matchType := "auto", createdAt := "" }

/-- Fixture: one retained event `x` matched by both a `high` edge from `a`
and a `medium` edge from `b`. -/
def exDB5 : DB := { events := [evA, evB, evX], eventMatches := [mAX, mBX], displayEvents := [] }

/-- An edge whose first member names no known event. -/
def mGhost : EventMatch :=
  { id := 1, eventId1 := "ghost", eventId2 := "x", score := 9 / 10, confidence := "high",
    reasons := "[]", matchType := "auto", createdAt := "" }

/-- Fixture: a single event plus a dangling match edge. -/
def exDB7 : DB := { events := [evX], eventMatches := [mGhost], displayEvents := [] }

/-- Witness events for the matcher claims: same title, same date, no
venue/time/geo data. -/
def wEvent1 : StoredEvent :=
  { id := 1, eventId := "w1", title := "ab", url := "https://w1", location := none,
    date := "2025-01-01", startTime := none, startDate := "2025-01-01", endDate := "2025-01-01",
    latitude := none, longitude := none, city := none, imageUrl := none, categories := "[]",
    source := "sw1", createdAt := "", updatedAt := "" }

def wEvent2 : StoredEvent :=
  { wEvent1 with id := 2, eventId := "w2", source := "sw2" }

/-- Witness events for the confidence-gate claim: similar-but-not-equal
titles, identical venue and time, no coordinates. -/
def wC2a : StoredEvent :=
  { wEvent1 with title := "ab", location := some ("q"), startTime := some ("10:00:00") }

def wC2b : StoredEvent :=
  { wEvent2 with title := "ax", location := some ("q"), startTime := some ("10:00:00") }

/-- Weights making the witness pair total 0.9 while its title score is
0.5. -/
def wC2w : MatchWeights := { title := 1 / 10, venue := 2 / 5, time := 2 / 5, geo := 1 / 10 }

/-- The classic Levenshtein edit distance (substitution, insertion and
deletion each of cost 1), as a recursive reference definition.  The
claims about `levenshteinDistance` are settled against this function. -/
def levRef : List Char → List Char → Nat
  | [], ys => ys.length
  | xs, [] => xs.length
  | x :: xs, y :: ys =>
    if x = y then levRef xs ys
    else 1 + min (levRef xs ys) (min (levRef (x :: xs) ys) (levRef xs (y :: ys)))
termination_by xs ys => xs.length + ys.length
decreasing_by all_goals simp_arith

theorem levRef_nil (ys : List Char) : levRef [] ys = ys.length := by
  cases ys <;> simp [levRef]

theorem levRef_nil' (xs : List Char) : levRef xs [] = xs.length := by
  cases xs <;> simp [levRef]

theorem levRef_cons (x y : Char) (xs ys : List Char) :
    levRef (x :: xs) (y :: ys) =
      if x = y then levRef xs ys
      else 1 + min (levRef xs ys) (min (levRef (x :: xs) ys) (levRef xs (y :: ys))) := by
  simp [levRef]

theorem levRef_self (xs : List Char) : levRef xs xs = 0 := by
  induction xs with
  | nil => simp [levRef]
  | cons x xs ih => simp [levRef_cons, ih]

theorem levRef_comm (xs : List Char) : ∀ ys : List Char, levRef xs ys = levRef ys xs := by
  induction xs with
  | nil => intro ys; rw [levRef_nil, levRef_nil']
  | cons x xs ihx =>
    intro ys
    induction ys with
    | nil => rw [levRef_nil, levRef_nil']
    | cons y ys ihy =>
      rw [levRef_cons x y xs ys, levRef_cons y x ys xs]
      rw [ihx ys, ihx (y :: ys), ihy]
      rcases eq_or_ne x y with h | h
      · simp [h]
      · rw [if_neg h, if_neg (Ne.symm h)]
        rw [min_comm (levRef ys (x :: xs)) (levRef (y :: ys) xs)]

theorem levRef_append_nil (x y : Char) : ∀ ys : List Char,
    levRef [x] (ys ++ [y]) =
      if x = y then levRef [] ys
      else 1 + min (levRef [] ys) (min (levRef [x] ys) (levRef [] (ys ++ [y]))) := by
  intro ys
  induction ys with
  | nil => exact levRef_cons x y [] []
  | cons y' ys ih =>
    rw [List.cons_append, levRef_cons x y' [] (ys ++ [y]), ih, levRef_cons x y' [] ys]
    simp only [levRef_nil, List.length_append, List.length_cons, List.length_nil]
    split_ifs <;> omega

set_option maxHeartbeats 2000000 in
theorem min_nine (p q r a b c d u v : ℕ) :
    min (min p (min a b)) (min (min q (min c d)) (min r (min u v))) =
      min (min p (min q r)) (min (min a (min c u)) (min b (min d v))) := by
  apply le_antisymm <;> simp [le_min_iff, min_le_iff]

set_option maxHeartbeats 1600000 in
theorem levRef_append (x y : Char) (xs : List Char) : ∀ ys : List Char,
    levRef (xs ++ [x]) (ys ++ [y]) =
      if x = y then levRef xs ys
      else 1 + min (levRef xs ys) (min (levRef (xs ++ [x]) ys) (levRef xs (ys ++ [y]))) := by
  induction xs with
  | nil => intro ys; simp only [List.nil_append]; exact levRef_append_nil x y ys
  | cons x' xs ihx =>
    intro ys
    induction ys with
    | nil =>
      simp only [List.nil_append]
      rw [levRef_comm ((x' :: xs) ++ [x]) [y], levRef_append_nil y x (x' :: xs)]
      rw [levRef_comm [] (x' :: xs), levRef_comm [y] (x' :: xs),
        levRef_comm [] ((x' :: xs) ++ [x])]
      rcases eq_or_ne x y with h | h
      · simp [h]
      · rw [if_neg (Ne.symm h), if_neg h]
        rw [min_comm (levRef (x' :: xs) [y]) (levRef ((x' :: xs) ++ [x]) [])]
    | cons y' ys ihy =>
      have c0 : levRef ((x' :: xs) ++ [x]) ((y' :: ys) ++ [y]) =
          if x' = y' then levRef (xs ++ [x]) (ys ++ [y])
          else 1 + min (levRef (xs ++ [x]) (ys ++ [y]))
            (min (levRef ((x' :: xs) ++ [x]) (ys ++ [y]))
              (levRef (xs ++ [x]) ((y' :: ys) ++ [y]))) := by
        simp only [List.cons_append]
        exact levRef_cons x' y' (xs ++ [x]) (ys ++ [y])
      have c2 : levRef ((x' :: xs) ++ [x]) (y' :: ys) =
          if x' = y' then levRef (xs ++ [x]) ys
          else 1 + min (levRef (xs ++ [x]) ys)
            (min (levRef ((x' :: xs) ++ [x]) ys) (levRef (xs ++ [x]) (y' :: ys))) := by
        simp only [List.cons_append]
        exact levRef_cons x' y' (xs ++ [x]) ys
      have c3 : levRef (x' :: xs) ((y' :: ys) ++ [y]) =
          if x' = y' then levRef xs (ys ++ [y])
          else 1 + min (levRef xs (ys ++ [y]))
            (min (levRef (x' :: xs) (ys ++ [y])) (levRef xs ((y' :: ys) ++ [y]))) := by
        simp only [List.cons_append]
        exact levRef_cons x' y' xs (ys ++ [y])
      rw [c0, ihx ys, ihy, ihx (y' :: ys)]
      rw [levRef_cons x' y' xs ys, c2, c3]
      rcases eq_or_ne x y with h | h <;> rcases eq_or_ne x' y' with h' | h'
      · simp only [if_pos h, if_pos h']
      · simp only [if_pos h, if_neg h']
      · simp only [if_neg h, if_pos h']
      · simp only [if_neg h, if_neg h']
        have e : ∀ a b c : ℕ, min (1 + a) (min (1 + b) (1 + c)) = 1 + min a (min b c) := by
          intro a b c; omega
        rw [e, e, min_nine]

theorem levRef_reverse (xs : List Char) : ∀ ys : List Char,
    levRef xs.reverse ys.reverse = levRef xs ys := by
  induction xs with
  | nil => intro ys; simp [levRef_nil]
  | cons x xs ihx =>
    intro ys
    induction ys with
    | nil => simp [levRef_nil']
    | cons y ys ihy =>
      rw [List.reverse_cons, List.reverse_cons, levRef_append]
      rw [← List.reverse_cons x, ← List.reverse_cons y]
      rw [ihx ys, ihy, ihx (y :: ys)]
      rw [levRef_cons]

theorem take_reverse_succ (l : List Char) (i : Nat) (h : i < l.length) :
    (l.take (i + 1)).reverse = l.getD i ' ' :: (l.take i).reverse := by
  rw [List.take_succ, List.reverse_append]
  rw [List.getElem?_eq_getElem h]
  simp [List.getD, List.getElem?_eq_getElem h]

theorem levCell_spec (bs as : List Char) : ∀ (fuel i j : Nat), i + j ≤ fuel →
    i ≤ bs.length → j ≤ as.length →
    levCell bs as fuel i j = levRef ((bs.take i).reverse) ((as.take j).reverse) := by
  intro fuel
  induction fuel with
  | zero =>
    intro i j h _ _
    obtain rfl : i = 0 := by omega
    obtain rfl : j = 0 := by omega
    simp [levCell, levRef]
  | succ fuel ih =>
    intro i j h hi hj
    match i, j with
    | 0, 0 => simp [levCell, levRef]
    | 0, j + 1 =>
      rw [show levCell bs as (fuel + 1) 0 (j + 1) = j + 1 from rfl]
      rw [List.take_zero, List.reverse_nil, levRef_nil, List.length_reverse,
        List.length_take]
      omega
    | i + 1, 0 =>
      rw [show levCell bs as (fuel + 1) (i + 1) 0 = i + 1 from rfl]
      rw [List.take_zero, List.reverse_nil, levRef_nil', List.length_reverse,
        List.length_take]
      omega
    | i + 1, j + 1 =>
      have hbi : i < bs.length := by omega
      have haj : j < as.length := by omega
      rw [take_reverse_succ bs i hbi, take_reverse_succ as j haj, levRef_cons]
      show (if bs.getD i ' ' = as.getD j ' ' then levCell bs as fuel i j
        else min (levCell bs as fuel i j + 1)
          (min (levCell bs as fuel (i + 1) j + 1) (levCell bs as fuel i (j + 1) + 1))) = _
      rw [ih i j (by omega) (by omega) (by omega),
        ih (i + 1) j (by omega) (by omega) (by omega),
        ih i (j + 1) (by omega) (by omega) (by omega)]
      rw [take_reverse_succ bs i hbi, take_reverse_succ as j haj]
      split
      · rfl
      · omega

/-- `levenshteinDistance` agrees with the classic reference definition on
the raw (un-normalized) input strings. -/
theorem levenshteinDistance_eq_levRef (a b : String) :
    levenshteinDistance a b = levRef a.data b.data := by
  unfold levenshteinDistance
  rw [levCell_spec b.data a.data (b.data.length + a.data.length)
    b.data.length a.data.length (le_refl _) (le_refl _) (le_refl _)]
  rw [List.take_length, List.take_length, levRef_reverse]
  exact levRef_comm _ _

/-! Helper lemmas about the JavaScript `Map` model. -/

theorem mapGet_mapSet_self {α : Type} (m : List (String × α)) (k : String) (v : α) :
    mapGet (mapSet m k v) k = some v := by
  unfold mapSet mapGet
  split
  · rename_i hany
    induction m with
    | nil => simp at hany
    | cons p m ih =>
      by_cases hp : p.1 = k
      · rw [List.map_cons, if_pos hp, List.find?_cons_of_pos _ (by simp)]
        simp
      · rw [List.map_cons, if_neg hp, List.find?_cons_of_neg _ (by simp [hp])]
        apply ih
        simp only [List.any_cons, Bool.or_eq_true, decide_eq_true_eq] at hany
        rcases hany with h | h
        · exact absurd h hp
        · simpa using h
  · rename_i hany
    have hnone : List.find? (fun p => decide (p.1 = k)) m = none := by
      rw [List.find?_eq_none]
      intro p hp
      simp only [decide_eq_true_eq]
      intro hk
      exact hany (List.any_eq_true.mpr ⟨p, hp, by simp [hk]⟩)
    rw [List.find?_append, hnone]
    rw [List.find?_cons_of_pos _ (by simp)]
    simp

theorem mapGet_mapSet_ne {α : Type} (m : List (String × α)) (k k' : String) (v : α)
    (h : k' ≠ k) : mapGet (mapSet m k v) k' = mapGet m k' := by
  unfold mapSet mapGet
  split
  · rename_i hany
    clear hany
    induction m with
    | nil => simp
    | cons p m ih =>
      by_cases hp : p.1 = k
      · have hpk' : ¬p.1 = k' := by rw [hp]; exact fun hh => h hh.symm
        rw [List.map_cons, if_pos hp,
          List.find?_cons_of_neg _ (by simp; exact fun hh => h hh.symm),
          List.find?_cons_of_neg _ (by simp [hpk'])]
        exact ih
      · rw [List.map_cons, if_neg hp]
        by_cases hp' : p.1 = k'
        · rw [List.find?_cons_of_pos _ (by simp [hp']), List.find?_cons_of_pos _ (by simp [hp'])]
        · rw [List.find?_cons_of_neg _ (by simp [hp']), List.find?_cons_of_neg _ (by simp [hp'])]
          exact ih
  · rw [List.find?_append]
    have hone : List.find? (fun p => decide (p.1 = k')) [(k, v)] = none := by
      rw [List.find?_cons_of_neg _ (by simp; exact fun hh => h hh.symm)]
      rfl
    rw [hone]
    cases hf : List.find? (fun p => decide (p.1 = k')) m <;> simp [hf]

/-! Helper lemmas about the fold building the alternate-URL map. -/

theorem mapGet_foldl_alt (db : DB) (k : String) : ∀ (l : List EventMatch)
    (acc : List (String × (String × String))),
    mapGet (l.foldl (fun acc m =>
      match lookupEventUrlSource db m.eventId1 with
      | some us => mapSet acc m.eventId2 us
      | none => acc) acc) k =
    match (l.filter (fun m =>
        m.eventId2 = k ∧ (lookupEventUrlSource db m.eventId1).isSome)).getLast? with
    | some m => lookupEventUrlSource db m.eventId1
    | none => mapGet acc k := by
  intro l
  induction l with
  | nil => intro acc; simp
  | cons m l ih =>
    intro acc
    rw [List.foldl_cons, ih]
    by_cases hp : m.eventId2 = k ∧ (lookupEventUrlSource db m.eventId1).isSome
    · rw [List.filter_cons_of_pos (by simpa using hp)]
      rcases hfl : l.filter (fun m =>
          m.eventId2 = k ∧ (lookupEventUrlSource db m.eventId1).isSome) with _ | ⟨m', l'⟩
      · rw [hfl]
        obtain ⟨us, hus⟩ := Option.isSome_iff_exists.mp hp.2
        simp only [List.getLast?_nil, List.getLast?_singleton, hus, hp.1]
        exact mapGet_mapSet_self acc k us
      · rw [hfl, List.getLast?_cons_cons,
          List.getLast?_eq_getLast_of_ne_nil (List.cons_ne_nil m' l')]
    · rw [List.filter_cons_of_neg (by simpa using hp)]
      rcases hgl : (l.filter (fun m =>
          m.eventId2 = k ∧ (lookupEventUrlSource db m.eventId1).isSome)).getLast? with _ | m''
      · rw [hgl]
        rcases hlook : lookupEventUrlSource db m.eventId1 with _ | us
        · simp only [hlook]
        · have hne : m.eventId2 ≠ k := fun hk => hp ⟨hk, by simp [hlook]⟩
          simp only [hlook]
          exact mapGet_mapSet_ne acc m.eventId2 k us (Ne.symm hne)
      · rw [hgl]

theorem mapGet_buildAltMap (db : DB) (k : String) :
    mapGet (buildAltMap db) k =
      ((getMatches db "medium").filter (fun m =>
        m.eventId2 = k ∧ (lookupEventUrlSource db m.eventId1).isSome)).getLast?.bind
        (fun m => lookupEventUrlSource db m.eventId1) := by
  unfold buildAltMap
  rw [mapGet_foldl_alt db k (getMatches db "medium") []]
  rcases hgl : ((getMatches db "medium").filter (fun m =>
      m.eventId2 = k ∧ (lookupEventUrlSource db m.eventId1).isSome)).getLast? with _ | m
  · rw [hgl]; rfl
  · rw [hgl]; rfl

/-! Helper lemmas about date bucketing in `findMatches`. -/

theorem mapGet_groupBy_invariant (d : String) : ∀ (l : List StoredEvent)
    (acc : List (String × List StoredEvent)),
    (mapGet (l.foldl (fun acc e =>
        mapSet acc e.date ((mapGet acc e.date).getD [] ++ [e])) acc) d).getD [] =
      (mapGet acc d).getD [] ++ l.filter (fun e => e.date = d) := by
  intro l
  induction l with
  | nil => intro acc; simp
  | cons e l ih =>
    intro acc
    rw [List.foldl_cons, ih]
    by_cases hd : e.date = d
    · rw [List.filter_cons_of_pos (by simpa using hd)]
      subst hd
      rw [mapGet_mapSet_self]
      simp
    · rw [List.filter_cons_of_neg (by simpa using hd)]
      rw [mapGet_mapSet_ne acc e.date d _ (Ne.symm hd)]

theorem mapGet_groupByDate (s2 : List StoredEvent) (d : String) :
    (mapGet (groupByDate s2) d).getD [] = s2.filter (fun e => e.date = d) := by
  unfold groupByDate
  rw [mapGet_groupBy_invariant d s2 []]
  simp [mapGet]

/-! Membership in an appending fold. -/

theorem mem_foldl_append {β : Type} (f : StoredEvent → List β) (x : β) :
    ∀ (l : List StoredEvent) (acc : List β),
      x ∈ l.foldl (fun a e => a ++ f e) acc ↔ x ∈ acc ∨ ∃ e ∈ l, x ∈ f e := by
  intro l
  induction l with
  | nil => intro acc; simp
  | cons e l ih =>
    intro acc
    rw [List.foldl_cons, ih]
    simp only [List.mem_append, List.mem_cons]
    constructor
    · rintro ((h | h) | ⟨e', he', hx⟩)
      · exact Or.inl h
      · exact Or.inr ⟨e, Or.inl rfl, h⟩
      · exact Or.inr ⟨e', Or.inr he', hx⟩
    · rintro (h | ⟨e', (rfl | he'), hx⟩)
      · exact Or.inl (Or.inl h)
      · exact Or.inl (Or.inr hx)
      · exact Or.inr ⟨e', he', hx⟩

/-! Filtering commutes with the stable sort. -/

theorem orderedInsert_of_forall {α : Type} (r : α → α → Prop) [DecidableRel r]
    (a : α) (l : List α) (h : ∀ x ∈ l, r a x) : List.orderedInsert r a l = a :: l := by
  cases l with
  | nil => rfl
  | cons b l => simp [List.orderedInsert, if_pos (h b (by simp))]

theorem filter_orderedInsert {α : Type} (r : α → α → Prop) [DecidableRel r] [IsTrans α r]
    (p : α → Bool) (a : α) : ∀ l : List α, l.Sorted r →
    (List.orderedInsert r a l).filter p =
      if p a then List.orderedInsert r a (l.filter p) else l.filter p := by
  intro l
  induction l with
  | nil =>
    intro _
    simp only [List.orderedInsert, List.filter]
    cases hp : p a <;> simp [hp]
  | cons b l ih =>
    intro hs
    rw [List.sorted_cons] at hs
    simp only [List.orderedInsert]
    by_cases hr : r a b
    · rw [if_pos hr]
      cases hp : p a
      · simp [List.filter_cons, hp]
      · have hforall : ∀ x ∈ (b :: l).filter p, r a x := by
          intro x hx
          have hx' : x ∈ b :: l := List.mem_of_mem_filter hx
          rcases List.mem_cons.mp hx' with h1 | h1
          · exact h1 ▸ hr
          · exact Trans.trans hr (hs.1 x h1)
        rw [orderedInsert_of_forall r a _ hforall]
        simp [List.filter_cons, hp]
    · rw [if_neg hr]
      cases hpa : p a <;> cases hpb : p b
      · simp [List.filter_cons, hpa, hpb, ih hs.2]
      · simp [List.filter_cons, hpa, hpb, ih hs.2]
      · simp [List.filter_cons, hpa, hpb, ih hs.2]
      · have h1 : List.filter p (b :: List.orderedInsert r a l) =
            b :: List.filter p (List.orderedInsert r a l) := by
          simp [List.filter_cons, hpb]
        have h2 : List.filter p (b :: l) = b :: List.filter p l := by
          simp [List.filter_cons, hpb]
        rw [h1, h2, ih hs.2, if_pos hpa, if_pos rfl]
        rw [List.orderedInsert, if_neg hr]

theorem filter_insertionSort {α : Type} (r : α → α → Prop) [DecidableRel r]
    [IsTotal α r] [IsTrans α r] (p : α → Bool) :
    ∀ l : List α, (List.insertionSort r l).filter p = List.insertionSort r (l.filter p) := by
  intro l
  induction l with
  | nil => rfl
  | cons a l ih =>
    show (List.orderedInsert r a (List.insertionSort r l)).filter p = _
    rw [filter_orderedInsert r p a _ (List.sorted_insertionSort r l), ih]
    simp only [List.filter_cons]
    cases hp : p a
    · simp
    · simp [List.insertionSort]

/-! A congruence principle for `filterMap`. -/

theorem filterMap_congr_mem {α β : Type} (f g : α → Option β) :
    ∀ l : List α, (∀ a ∈ l, f a = g a) → l.filterMap f = l.filterMap g := by
  intro l
  induction l with
  | nil => intro _; rfl
  | cons a l ih =>
    intro h
    rw [List.filterMap_cons, List.filterMap_cons, h a (by simp), ih (fun a ha => h a (by simp [ha]))]

/-! Claim theorems. -/

/-- The confidence tier stored by `scoreMatch` is the classifier applied
to the stored total and title scores (all three fields are built from the
same intermediate values). -/
theorem scoreMatch_confidence_eq (e1 e2 : StoredEvent) (w : MatchWeights) :
    (scoreMatch e1 e2 w).confidence =
      if (scoreMatch e1 e2 w).totalScore ≥ 17 / 20 ∧ (scoreMatch e1 e2 w).titleScore ≥ 4 / 5
      then "high"
      else if (scoreMatch e1 e2 w).totalScore ≥ 7 / 10 ∧ (scoreMatch e1 e2 w).titleScore ≥ 3 / 5
      then "medium"
      else "low" := rfl

/-- C2: for every pair of events and any weights, `scoreMatch` classifies
`high` iff total ≥ 0.85 and title ≥ 0.8; `medium` iff not `high`, total
≥ 0.70 and title ≥ 0.6; otherwise `low`; in particular a result with
total score 0.9 but title score 0.5 is classified `low`. -/
theorem claim_C2_confidence_classification (event1 event2 : StoredEvent)
    (weights : MatchWeights) :
    ((scoreMatch event1 event2 weights).confidence = "high" ↔
      17 / 20 ≤ (scoreMatch event1 event2 weights).totalScore ∧
        4 / 5 ≤ (scoreMatch event1 event2 weights).titleScore) ∧
    ((scoreMatch event1 event2 weights).confidence = "medium" ↔
      ¬(17 / 20 ≤ (scoreMatch event1 event2 weights).totalScore ∧
          4 / 5 ≤ (scoreMatch event1 event2 weights).titleScore) ∧
        7 / 10 ≤ (scoreMatch event1 event2 weights).totalScore ∧
        3 / 5 ≤ (scoreMatch event1 event2 weights).titleScore) ∧
    ((scoreMatch event1 event2 weights).confidence = "low" ↔
      ¬(17 / 20 ≤ (scoreMatch event1 event2 weights).totalScore ∧
          4 / 5 ≤ (scoreMatch event1 event2 weights).titleScore) ∧
        ¬(7 / 10 ≤ (scoreMatch event1 event2 weights).totalScore ∧
          3 / 5 ≤ (scoreMatch event1 event2 weights).titleScore)) ∧
    ((scoreMatch event1 event2 weights).totalScore = 9 / 10 →
      (scoreMatch event1 event2 weights).titleScore = 1 / 2 →
      (scoreMatch event1 event2 weights).confidence = "low") := by
  rw [scoreMatch_confidence_eq]
  generalize (scoreMatch event1 event2 weights).totalScore = total
  generalize (scoreMatch event1 event2 weights).titleScore = title
  simp only [ge_iff_le]
  refine ⟨?_, ?_, ?_, ?_⟩
  · split_ifs with h1 h2
    · simp [h1]
    · simp [h1]
    · simp [h1]
  · split_ifs with h1 h2
    · simp [h1]
    · simp [h1, h2]
    · simp [h2]
  · split_ifs with h1 h2
    · simp [h1]
    · simp [h2]
    · simp [h1, h2]
  · intro ht hti
    subst ht hti
    split_ifs with h1 h2
    · exfalso; rcases h1 with ⟨_, h⟩; norm_num at h
    · exfalso; rcases h2 with ⟨_, h⟩; norm_num at h
    · rfl

theorem ratio_cases (p q : ℕ)
    (h : (2 / 5 : ℚ) < (min p q : ℚ) / (max p q : ℚ)) :
    (2 / 5 : ℚ) < (p : ℚ) / (q : ℚ) ∧ (2 / 5 : ℚ) < (q : ℚ) / (p : ℚ) := by
  rcases le_total p q with hpq | hpq
  · have hc : (p : ℚ) ≤ (q : ℚ) := by exact_mod_cast hpq
    rw [min_eq_left hc, max_eq_right hc] at h
    have hpQ : (0 : ℚ) < p := by
      by_contra hp0
      push_neg at hp0
      have hzero : (p : ℚ) = 0 := le_antisymm hp0 (by positivity)
      rw [hzero, zero_div] at h
      norm_num at h
    refine ⟨h, lt_of_lt_of_le (by norm_num : (2 / 5 : ℚ) < 1) ?_⟩
    rw [le_div_iff₀ hpQ, one_mul]
    exact hc
  · have hc : (q : ℚ) ≤ (p : ℚ) := by exact_mod_cast hpq
    rw [min_eq_right hc, max_eq_left hc] at h
    have hqQ : (0 : ℚ) < q := by
      by_contra hq0
      push_neg at hq0
      have hzero : (q : ℚ) = 0 := le_antisymm hq0 (by positivity)
      rw [hzero, zero_div] at h
      norm_num at h
    refine ⟨lt_of_lt_of_le (by norm_num : (2 / 5 : ℚ) < 1) ?_, h⟩
    rw [le_div_iff₀ hqQ, one_mul]
    exact hc

/-- C3: whenever one normalized title is a substring of the other and the
ratio of the shorter to the longer normalized length exceeds 0.4, the
title dimension scores exactly 0.95, regardless of edit distance or token
overlap. -/
theorem claim_C3_title_substring (t1 t2 : String)
    (hsub : containsSubstring t1 t2 = true)
    (hratio : (2 / 5 : ℚ) <
      (min (normalizeText t1).length (normalizeText t2).length : ℚ) /
        (max (normalizeText t1).length (normalizeText t2).length : ℚ)) :
    (scoreTitles t1 t2).1 = 19 / 20 := by
  obtain ⟨hr1, hr2⟩ := ratio_cases _ _ hratio
  unfold scoreTitles
  rw [if_pos hsub]
  simp only
  by_cases hlen : t1.length < t2.length
  · rw [if_pos hlen, if_pos hlen, if_pos (by exact hr1)]
  · rw [if_neg hlen, if_neg hlen, if_pos (by exact hr2)]

/-- C6: `rebuildDisplayEvents` is idempotent — it reads only the events
and match edges, which it leaves untouched, so a second run reproduces
exactly the same display rows (and count) as the first. -/
theorem claim_C6_rebuild_idempotent (db : DB) :
    rebuildDisplayEvents (rebuildDisplayEvents db).1 = rebuildDisplayEvents db := rfl

/-- The haversine distance between identical coordinates is zero. -/
theorem geoDistance_self (lat lng : ℝ) : geoDistance lat lng lat lng = 0 := by
  unfold geoDistance atan2
  simp [Real.sqrt_one, Real.arctan_zero]

/-- C8 counterexample: latitude 0 is a present coordinate at zero
distance from itself, so the claim requires geo score 1.0 there, but the
code's falsiness test treats it as missing and returns the neutral 0.5. -/
theorem claim_C8_counterexample :
    (scoreGeo (some 0) (some 50) (some 0) (some 50)).1 = 1 / 2 ∧
      geoDistance ((0 : ℚ) : ℝ) ((50 : ℚ) : ℝ) ((0 : ℚ) : ℝ) ((50 : ℚ) : ℝ) < 100 ∧
      ((1 : ℚ) / 2) ≠ 1 := by
  refine ⟨?_, ?_, by norm_num⟩
  · simp [scoreGeo]
  · rw [geoDistance_self]
    norm_num

/-- C8 amended: the geo score is 0.5 exactly when any of the four
coordinates is missing **or zero** (the JavaScript falsiness test);
otherwise it is the haversine band: 1.0 below 100 m, 0.8 from 100 m up
to 500 m, 0.5 from 500 m up to 1000 m, 0.0 at or beyond 1000 m. -/
theorem claim_C8_geo_bands (lat1 lng1 lat2 lng2 : Option ℚ) :
    ((lat1.getD 0 = 0 ∨ lng1.getD 0 = 0 ∨ lat2.getD 0 = 0 ∨ lng2.getD 0 = 0) →
      (scoreGeo lat1 lng1 lat2 lng2).1 = 1 / 2) ∧
    (¬(lat1.getD 0 = 0 ∨ lng1.getD 0 = 0 ∨ lat2.getD 0 = 0 ∨ lng2.getD 0 = 0) →
      (((scoreGeo lat1 lng1 lat2 lng2).1 = 1 ↔
          geoDistance (lat1.getD 0 : ℚ) (lng1.getD 0 : ℚ) (lat2.getD 0 : ℚ) (lng2.getD 0 : ℚ) < 100) ∧
        ((scoreGeo lat1 lng1 lat2 lng2).1 = 4 / 5 ↔
          100 ≤ geoDistance (lat1.getD 0 : ℚ) (lng1.getD 0 : ℚ) (lat2.getD 0 : ℚ) (lng2.getD 0 : ℚ) ∧
            geoDistance (lat1.getD 0 : ℚ) (lng1.getD 0 : ℚ) (lat2.getD 0 : ℚ) (lng2.getD 0 : ℚ) < 500) ∧
        ((scoreGeo lat1 lng1 lat2 lng2).1 = 1 / 2 ↔
          500 ≤ geoDistance (lat1.getD 0 : ℚ) (lng1.getD 0 : ℚ) (lat2.getD 0 : ℚ) (lng2.getD 0 : ℚ) ∧
            geoDistance (lat1.getD 0 : ℚ) (lng1.getD 0 : ℚ) (lat2.getD 0 : ℚ) (lng2.getD 0 : ℚ) < 1000) ∧
        ((scoreGeo lat1 lng1 lat2 lng2).1 = 0 ↔
          1000 ≤ geoDistance (lat1.getD 0 : ℚ) (lng1.getD 0 : ℚ) (lat2.getD 0 : ℚ) (lng2.getD 0 : ℚ)))) := by
  unfold scoreGeo
  constructor
  · intro hfalsy
    rw [if_pos (by simp only [Bool.or_eq_true, decide_eq_true_eq, or_assoc]; exact hfalsy)]
  · intro hfalsy
    rw [if_neg (by simp only [Bool.or_eq_true, decide_eq_true_eq, or_assoc]; exact hfalsy)]
    simp only
    split_ifs with hd1 hd2 hd3
    · exact ⟨⟨fun _ => hd1, fun _ => rfl⟩,
        ⟨fun hh => by norm_num at hh, fun hh => by linarith [hh.1]⟩,
        ⟨fun hh => by norm_num at hh, fun hh => by linarith [hh.1]⟩,
        ⟨fun hh => by norm_num at hh, fun hh => by linarith⟩⟩
    · rw [not_lt] at hd1
      exact ⟨⟨fun hh => by norm_num at hh, fun hh => by linarith⟩,
        ⟨fun _ => ⟨hd1, hd2⟩, fun _ => rfl⟩,
        ⟨fun hh => by norm_num at hh, fun hh => by linarith [hh.1]⟩,
        ⟨fun hh => by norm_num at hh, fun hh => by linarith⟩⟩
    · rw [not_lt] at hd1 hd2
      exact ⟨⟨fun hh => by norm_num at hh, fun hh => by linarith⟩,
        ⟨fun hh => by norm_num at hh, fun hh => by linarith [hh.2]⟩,
        ⟨fun _ => ⟨hd2, hd3⟩, fun _ => rfl⟩,
        ⟨fun hh => by norm_num at hh, fun hh => by linarith⟩⟩
    · rw [not_lt] at hd1 hd2 hd3
      exact ⟨⟨fun hh => by norm_num at hh, fun hh => by linarith⟩,
        ⟨fun hh => by norm_num at hh, fun hh => by linarith [hh.2]⟩,
        ⟨fun hh => by norm_num at hh, fun hh => by linarith [hh.2]⟩,
        ⟨fun _ => hd3, fun _ => rfl⟩⟩

/-- C9 counterexample: `levenshteinDistance` is computed on the raw
strings, so `"A"` vs `"a"` gives 1, while the classic distance of the
normalized forms (both `"a"`) is 0. -/
theorem claim_C9_counterexample :
    levenshteinDistance ("A") ("a") = 1 ∧
      normalizeText ("A") = normalizeText ("a") ∧
      levRef (normalizeText ("A")).data (normalizeText ("a")).data = 0 ∧
      (1 : ℕ) ≠ 0 := by
  refine ⟨by decide, by decide, ?_, by decide⟩
  have h : normalizeText ("A") = normalizeText ("a") := by decide
  rw [h]
  exact levRef_self _

/-- C9 amended: `levenshteinDistance(a, b)` equals the classic
Levenshtein edit distance (substitution, insertion and deletion each of
cost 1) of the raw input strings `a` and `b`; normalization is applied by
its caller `stringSimilarity`, not by `levenshteinDistance` itself. -/
theorem claim_C9_levenshtein_classic (a b : String) :
    levenshteinDistance a b = levRef a.data b.data :=
  levenshteinDistance_eq_levRef a b

/-- `List.contains` agrees with membership on strings. -/
theorem contains_iff (l : List String) (s : String) : l.contains s = true ↔ s ∈ l := by
  induction l with
  | nil => simp [List.contains_nil]
  | cons a l ih =>
    rw [List.contains_cons]
    simp only [Bool.or_eq_true, beq_iff_eq, ih, List.mem_cons]

/-- With `limit = events.length` and `offset = 0` (the arguments used by
`rebuildDisplayEvents`), `getDeduplicatedEvents` is the bare filter-map
over the sorted events. -/
theorem getDedup_full (db : DB) :
    getDeduplicatedEvents db db.events.length 0 =
      (sortEvents db.events).filterMap (fun e =>
        if (excludeIds db).contains e.eventId then none
        else some { event := e,
                    altUrl := (mapGet (buildAltMap db) e.eventId).map (fun p => p.1),
                    altSource := (mapGet (buildAltMap db) e.eventId).map (fun p => p.2) }) := by
  have h : getDeduplicatedEvents db db.events.length 0 =
      (((sortEvents db.events).filterMap (fun e =>
        if (excludeIds db).contains e.eventId then none
        else some { event := e,
                    altUrl := (mapGet (buildAltMap db) e.eventId).map (fun p => p.1),
                    altSource := (mapGet (buildAltMap db) e.eventId).map
                      (fun p => p.2) })).drop 0).take db.events.length := rfl
  rw [h, List.drop_zero]
  refine List.take_of_length_le (le_trans (List.length_filterMap_le _ _) ?_)
  exact le_of_eq (List.perm_insertionSort eventOrder db.events).length_eq

/-- C1: an event identifier appears among the rebuilt display rows iff it
names an event and is not the first member of any `high` or `medium`
match edge; `low` edges never exclude anything. -/
theorem claim_C1_exclusion (db : DB) (eid : String) :
    (∃ row ∈ (rebuildDisplayEvents db).1.displayEvents, row.eventId = eid) ↔
      ((∃ e ∈ db.events, e.eventId = eid) ∧
        ∀ m ∈ db.eventMatches, (m.confidence = "high" ∨ m.confidence = "medium") →
          m.eventId1 ≠ eid) := by
  have hdisp : (rebuildDisplayEvents db).1.displayEvents =
      (getDeduplicatedEvents db db.events.length 0).map toDisplayRow := rfl
  have hexcl : ∀ s : String, (excludeIds db).contains s = true ↔
      ∃ m ∈ db.eventMatches, (m.confidence = "high" ∨ m.confidence = "medium") ∧
        m.eventId1 = s := by
    intro s
    rw [contains_iff]
    unfold excludeIds
    simp only [List.mem_map, List.mem_filter, Bool.or_eq_true, decide_eq_true_eq]
    constructor
    · rintro ⟨m, ⟨hm, hconf⟩, heq⟩
      exact ⟨m, hm, hconf, heq⟩
    · rintro ⟨m, hm, hconf, heq⟩
      exact ⟨m, ⟨hm, hconf⟩, heq⟩
  constructor
  · rintro ⟨row, hrow, heid⟩
    rw [hdisp, getDedup_full] at hrow
    obtain ⟨d, hd, hrowd⟩ := List.mem_map.mp hrow
    obtain ⟨e, he, hfe⟩ := List.mem_filterMap.mp hd
    by_cases hex : (excludeIds db).contains e.eventId = true
    · rw [if_pos hex] at hfe
      exact absurd hfe (by simp)
    · rw [if_neg hex] at hfe
      obtain rfl := Option.some.inj hfe
      subst hrowd
      have heid' : e.eventId = eid := heid
      refine ⟨⟨e, ?_, heid'⟩, ?_⟩
      · exact ((List.perm_insertionSort eventOrder db.events).mem_iff).mp he
      · intro m hm hconf hmeq
        exact hex ((hexcl e.eventId).mpr ⟨m, hm, hconf, hmeq.trans heid'.symm⟩)
  · rintro ⟨⟨e, he, heid⟩, hnone⟩
    have hex : ¬(excludeIds db).contains e.eventId = true := by
      rw [hexcl]
      rintro ⟨m, hm, hconf, hmeid⟩
      exact hnone m hm hconf (by rw [hmeid, heid])
    refine ⟨toDisplayRow { event := e,
                           altUrl := (mapGet (buildAltMap db) e.eventId).map (fun p => p.1),
                           altSource := (mapGet (buildAltMap db) e.eventId).map (fun p => p.2) },
      ?_, heid⟩
    rw [hdisp, getDedup_full]
    apply List.mem_map.mpr
    refine ⟨_, List.mem_filterMap.mpr ⟨e, ?_, ?_⟩, rfl⟩
    · exact ((List.perm_insertionSort eventOrder db.events).mem_iff).mpr he
    · rw [if_neg hex]

/-- The list returned by `findMatches` contains exactly the scores of
same-date pairs whose total reaches `minScore`. -/
theorem mem_findMatches (s1 s2 : List StoredEvent) (minScore : ℚ) (x : MatchScore) :
    x ∈ findMatches s1 s2 minScore ↔
      ∃ e1 ∈ s1, ∃ e2 ∈ s2, e1.date = e2.date ∧
        minScore ≤ (scoreMatch e1 e2 DEFAULT_WEIGHTS).totalScore ∧
        x = scoreMatch e1 e2 DEFAULT_WEIGHTS := by
  show x ∈ List.insertionSort matchScoreGE (s1.foldl (fun acc event1 =>
      acc ++ ((mapGet (groupByDate s2) event1.date).getD []).filterMap (fun event2 =>
        if (scoreMatch event1 event2 DEFAULT_WEIGHTS).totalScore ≥ minScore
        then some (scoreMatch event1 event2 DEFAULT_WEIGHTS) else none)) []) ↔ _
  rw [(List.perm_insertionSort matchScoreGE _).mem_iff,
    mem_foldl_append (fun event1 =>
      ((mapGet (groupByDate s2) event1.date).getD []).filterMap (fun event2 =>
        if (scoreMatch event1 event2 DEFAULT_WEIGHTS).totalScore ≥ minScore
        then some (scoreMatch event1 event2 DEFAULT_WEIGHTS) else none)) x s1 []]
  simp only [List.not_mem_nil, false_or, List.mem_filterMap, mapGet_groupByDate,
    List.mem_filter, Option.ite_none_right_eq_some, Option.some.injEq, ge_iff_le,
    decide_eq_true_eq]
  constructor
  · rintro ⟨e1, h1, e2, ⟨h2, hdate⟩, hms, hx⟩
    exact ⟨e1, h1, e2, h2, hdate.symm, hms, hx.symm⟩
  · rintro ⟨e1, h1, e2, h2, hdate, hms, hx⟩
    exact ⟨e1, h1, e2, ⟨h2, hdate.symm⟩, hms, hx.symm⟩

/-- C4: `findMatches` returns exactly the same-date pairs whose total
score meets the inclusive `minScore` threshold, sorted by descending
total score. -/
theorem claim_C4_findMatches (source1Events source2Events : List StoredEvent) (minScore : ℚ) :
    (∀ x : MatchScore, x ∈ findMatches source1Events source2Events minScore ↔
      ∃ e1 ∈ source1Events, ∃ e2 ∈ source2Events, e1.date = e2.date ∧
        minScore ≤ (scoreMatch e1 e2 DEFAULT_WEIGHTS).totalScore ∧
        x = scoreMatch e1 e2 DEFAULT_WEIGHTS) ∧
    List.Sorted matchScoreGE (findMatches source1Events source2Events minScore) :=
  ⟨fun x => mem_findMatches source1Events source2Events minScore x,
    List.sorted_insertionSort matchScoreGE _⟩

/-- C10: every score returned by `findMatches` carries as `eventId1` the
identifier of some event of the first collection and as `eventId2` the
identifier of some event of the second collection. -/
theorem claim_C10_edge_orientation (s1 s2 : List StoredEvent) (minScore : ℚ)
    (x : MatchScore) (hx : x ∈ findMatches s1 s2 minScore) :
    (∃ e1 ∈ s1, x.eventId1 = e1.eventId) ∧ (∃ e2 ∈ s2, x.eventId2 = e2.eventId) := by
  obtain ⟨e1, h1, e2, h2, _, _, hx⟩ := (mem_findMatches s1 s2 minScore x).mp hx
  subst hx
  exact ⟨⟨e1, h1, rfl⟩, ⟨e2, h2, rfl⟩⟩

/-! Concrete evaluations of the four dimension scorers on the witness
fixtures. -/

theorem wEval_title : scoreTitles ("ab") ("ab") = (19 / 20, "title substring match") := by
  with_unfolding_all rfl

theorem wEval_venues : scoreVenues none none = (1 / 2, "venue unknown") := rfl

theorem wEval_times : scoreTimes none none = (1 / 2, "time unknown") := rfl

theorem wEval_geo : scoreGeo none none none none = (1 / 2, "geo unknown") := by
  simp [scoreGeo]

theorem scoreMatch_w_total : (scoreMatch wEvent1 wEvent2 DEFAULT_WEIGHTS).totalScore = 29 / 40 := by
  show (scoreTitles ("ab") ("ab")).1 * (1 / 2 : ℚ) + (scoreVenues none none).1 * (1 / 4 : ℚ) +
      (scoreTimes none none).1 * (3 / 20 : ℚ) + (scoreGeo none none none none).1 * (1 / 10 : ℚ) =
      29 / 40
  rw [wEval_title, wEval_venues, wEval_times, wEval_geo]
  norm_num

theorem wEval_title2 : scoreTitles ("ab") ("ax") = (1 / 2, "low similarity") := by
  with_unfolding_all rfl

theorem wEval_venues2 : scoreVenues (some ("q")) (some ("q")) = (1, "venue name match") := by
  with_unfolding_all rfl

theorem wEval_times2 :
    scoreTimes (some ("10:00:00")) (some ("10:00:00")) = (1, "exact time match") := by
  with_unfolding_all rfl

theorem scoreMatch_C2_total : (scoreMatch wC2a wC2b wC2w).totalScore = 9 / 10 := by
  show (scoreTitles ("ab") ("ax")).1 * (1 / 10 : ℚ) +
      (scoreVenues (some ("q")) (some ("q"))).1 * (2 / 5 : ℚ) +
      (scoreTimes (some ("10:00:00")) (some ("10:00:00"))).1 * (2 / 5 : ℚ) +
      (scoreGeo none none none none).1 * (1 / 10 : ℚ) = 9 / 10
  rw [wEval_title2, wEval_venues2, wEval_times2, wEval_geo]
  norm_num

theorem scoreMatch_C2_title : (scoreMatch wC2a wC2b wC2w).titleScore = 1 / 2 := by
  show (scoreTitles ("ab") ("ax")).1 = 1 / 2
  rw [wEval_title2]

/-- Witness: the fixture pair has total score 0.9, title score 0.5, and
is classified `low`. -/
theorem claim_C2_witness :
    (scoreMatch wC2a wC2b wC2w).totalScore = 9 / 10 ∧
      (scoreMatch wC2a wC2b wC2w).titleScore = 1 / 2 ∧
      (scoreMatch wC2a wC2b wC2w).confidence = "low" :=
  ⟨scoreMatch_C2_total, scoreMatch_C2_title,
    (claim_C2_confidence_classification wC2a wC2b wC2w).2.2.2 scoreMatch_C2_total
      scoreMatch_C2_title⟩

/-- Witness: `"ab"` and `"abc"` satisfy the substring and ratio
hypotheses and indeed score 0.95. -/
theorem claim_C3_witness :
    containsSubstring ("ab") ("abc") = true ∧
      (2 / 5 : ℚ) < (min (normalizeText ("ab")).length (normalizeText ("abc")).length : ℚ) /
        (max (normalizeText ("ab")).length (normalizeText ("abc")).length : ℚ) ∧
      (scoreTitles ("ab") ("abc")).1 = 19 / 20 := by
  have h1 : containsSubstring ("ab") ("abc") = true := by decide
  have h2 : (2 / 5 : ℚ) <
      (min (normalizeText ("ab")).length (normalizeText ("abc")).length : ℚ) /
        (max (normalizeText ("ab")).length (normalizeText ("abc")).length : ℚ) := by
    rw [show (normalizeText ("ab")).length = 2 from by decide,
      show (normalizeText ("abc")).length = 3 from by decide]
    norm_num
  exact ⟨h1, h2, claim_C3_title_substring ("ab") ("abc") h1 h2⟩

/-- Witness: with all four coordinates present and nonzero (latitude and
longitude 1 on both sides, at haversine distance 0 < 100 m), the geo
score is the top band 1.0. -/
theorem claim_C8_witness :
    (scoreGeo (some 1) (some 1) (some 1) (some 1)).1 = 1 := by
  have hnf : ¬(((some (1 : ℚ)).getD 0 = 0) ∨ ((some (1 : ℚ)).getD 0 = 0) ∨
      ((some (1 : ℚ)).getD 0 = 0) ∨ ((some (1 : ℚ)).getD 0 = 0)) := by norm_num
  have hdist : geoDistance (((some (1 : ℚ)).getD 0 : ℚ) : ℝ) (((some (1 : ℚ)).getD 0 : ℚ) : ℝ)
      (((some (1 : ℚ)).getD 0 : ℚ) : ℝ) (((some (1 : ℚ)).getD 0 : ℚ) : ℝ) < 100 := by
    rw [geoDistance_self]
    norm_num
  exact (((claim_C8_geo_bands (some 1) (some 1) (some 1) (some 1)).2 hnf).1).mpr hdist

/-- Witness: the single cross-source pair of the singleton collections is
returned by `findMatches` and its ids point into the respective
collections. -/
theorem claim_C10_witness :
    (∃ e1 ∈ [wEvent1], (scoreMatch wEvent1 wEvent2 DEFAULT_WEIGHTS).eventId1 = e1.eventId) ∧
      ∃ e2 ∈ [wEvent2], (scoreMatch wEvent1 wEvent2 DEFAULT_WEIGHTS).eventId2 = e2.eventId :=
  claim_C10_edge_orientation [wEvent1] [wEvent2] 0 _
    ((mem_findMatches [wEvent1] [wEvent2] 0 _).mpr
      ⟨wEvent1, List.mem_singleton.mpr rfl, wEvent2, List.mem_singleton.mpr rfl, rfl,
        by rw [scoreMatch_w_total]; norm_num, rfl⟩)

/-- C5 counterexample: event `x` has a `high` edge from `a` (score 0.9)
and a `medium` edge from `b` (score 0.75), both resolvable; the pipeline
attaches the URL and source of `b` — the last, lowest-scored,
lower-tier edge — not those of the `high` edge from `a`. -/
theorem claim_C5_counterexample :
    (getDeduplicatedEvents exDB5 3 0).map (fun d => (d.event.eventId, d.altUrl, d.altSource)) =
        [("x", some ("https://s2/b"), some ("s2"))] ∧
      exDB5.eventMatches.filter
        (fun m => m.confidence = "high" ∧ m.eventId2 = "x") = [mAX] ∧
      lookupEventUrlSource exDB5 mAX.eventId1 = some ("https://s1/a", "s1") ∧
      (some ("https://s2/b") : Option String) ≠ some ("https://s1/a") := by
  refine ⟨by with_unfolding_all rfl, by with_unfolding_all rfl, by with_unfolding_all rfl,
    by decide⟩

/-- C5 amended: the alternate URL and source of a retained event come
from the **last** edge of the score-descending `medium`-and-above list
whose first member resolves to a known event — i.e. from the
lowest-scored resolvable edge, not from the highest tier. -/
theorem claim_C5_alternate_from_last_edge (db : DB) (limit offset : ℕ) (d : DedupEvent)
    (hd : d ∈ getDeduplicatedEvents db limit offset) :
    d.altUrl = ((((getMatches db "medium").filter (fun m =>
          m.eventId2 = d.event.eventId ∧ (lookupEventUrlSource db m.eventId1).isSome)).getLast?.bind
        (fun m => lookupEventUrlSource db m.eventId1)).map (fun p => p.1)) ∧
    d.altSource = ((((getMatches db "medium").filter (fun m =>
          m.eventId2 = d.event.eventId ∧ (lookupEventUrlSource db m.eventId1).isSome)).getLast?.bind
        (fun m => lookupEventUrlSource db m.eventId1)).map (fun p => p.2)) := by
  have hd1 : d ∈ (sortEvents db.events).filterMap (fun e =>
      if (excludeIds db).contains e.eventId then none
      else some { event := e,
                  altUrl := (mapGet (buildAltMap db) e.eventId).map (fun p => p.1),
                  altSource := (mapGet (buildAltMap db) e.eventId).map (fun p => p.2) }) :=
    List.drop_subset offset _ (List.take_subset limit _ hd)
  obtain ⟨e, he, hfe⟩ := List.mem_filterMap.mp hd1
  by_cases hex : (excludeIds db).contains e.eventId = true
  · rw [if_pos hex] at hfe
    exact absurd hfe (by simp)
  · rw [if_neg hex] at hfe
    obtain rfl := Option.some.inj hfe
    constructor
    · show (mapGet (buildAltMap db) e.eventId).map (fun p => p.1) = _
      rw [mapGet_buildAltMap]
    · show (mapGet (buildAltMap db) e.eventId).map (fun p => p.2) = _
      rw [mapGet_buildAltMap]

/-- Witness: in the two-edge fixture the retained event `x` is in the
deduplicated list and its alternate URL is that of the last resolvable
`medium`-and-above edge. -/
theorem claim_C5_witness :
    (⟨evX, some ("https://s2/b"), some ("s2")⟩ : DedupEvent) ∈ getDeduplicatedEvents exDB5 3 0 ∧
      (⟨evX, some ("https://s2/b"), some ("s2")⟩ : DedupEvent).altUrl =
        ((((getMatches exDB5 "medium").filter (fun m =>
            m.eventId2 = (⟨evX, some ("https://s2/b"), some ("s2")⟩ : DedupEvent).event.eventId ∧
              (lookupEventUrlSource exDB5 m.eventId1).isSome)).getLast?.bind
          (fun m => lookupEventUrlSource exDB5 m.eventId1)).map (fun p => p.1)) := by
  have hmem : (⟨evX, some ("https://s2/b"), some ("s2")⟩ : DedupEvent) ∈
      getDeduplicatedEvents exDB5 3 0 := by
    rw [show getDeduplicatedEvents exDB5 3 0 =
      [⟨evX, some ("https://s2/b"), some ("s2")⟩] from by with_unfolding_all rfl]
    exact List.mem_singleton.mpr rfl
  exact ⟨hmem, (claim_C5_alternate_from_last_edge exDB5 3 0 _ hmem).1⟩

/-- C7: a `high`/`medium` edge whose first member names no known event
contributes nothing: the rebuild completes and produces exactly the
display rows (and count) it would produce without that edge. -/
theorem claim_C7_dangling_edge (db : DB) (m : EventMatch) (l1 l2 : List EventMatch)
    (hsplit : db.eventMatches = l1 ++ m :: l2)
    (hconf : m.confidence = "high" ∨ m.confidence = "medium")
    (hdangling : ∀ e ∈ db.events, e.eventId ≠ m.eventId1) :
    (rebuildDisplayEvents db).1.displayEvents =
        (rebuildDisplayEvents { db with eventMatches := l1 ++ l2 }).1.displayEvents ∧
      (rebuildDisplayEvents db).2 = (rebuildDisplayEvents { db with eventMatches := l1 ++ l2 }).2 := by
  have hpm : (decide (m.confidence = "high") || decide (m.confidence = "medium")) = true := by
    rcases hconf with h | h <;> simp [h]
  have hlookm : lookupEventUrlSource db m.eventId1 = none := by
    unfold lookupEventUrlSource
    rw [List.find?_eq_none.mpr]
    · rfl
    · intro e he
      simp only [decide_eq_true_eq]
      exact hdangling e he
  have hA : excludeIds db =
      ((l1.filter (fun m' => m'.confidence = "high" || m'.confidence = "medium")).map
        (fun m' => m'.eventId1)) ++ m.eventId1 ::
      ((l2.filter (fun m' => m'.confidence = "high" || m'.confidence = "medium")).map
        (fun m' => m'.eventId1)) := by
    unfold excludeIds
    rw [hsplit, List.filter_append]
    simp only [List.filter_cons]
    rw [if_pos hpm, List.map_append, List.map_cons]
  have hB : excludeIds { db with eventMatches := l1 ++ l2 } =
      ((l1.filter (fun m' => m'.confidence = "high" || m'.confidence = "medium")).map
        (fun m' => m'.eventId1)) ++
      ((l2.filter (fun m' => m'.confidence = "high" || m'.confidence = "medium")).map
        (fun m' => m'.eventId1)) := by
    unfold excludeIds
    rw [show ({ db with eventMatches := l1 ++ l2 } : DB).eventMatches = l1 ++ l2 from rfl,
      List.filter_append, List.map_append]
  have hexcl : ∀ s : String, s ≠ m.eventId1 →
      (excludeIds db).contains s =
        (excludeIds { db with eventMatches := l1 ++ l2 }).contains s := by
    intro s hs
    rw [Bool.eq_iff_iff, contains_iff, contains_iff, hA, hB]
    simp [List.mem_append, List.mem_cons, hs]
  have hgm : ∀ k : String,
      (getMatches db "medium").filter (fun m' =>
          m'.eventId2 = k ∧ (lookupEventUrlSource db m'.eventId1).isSome) =
        (getMatches { db with eventMatches := l1 ++ l2 } "medium").filter (fun m' =>
          m'.eventId2 = k ∧ (lookupEventUrlSource db m'.eventId1).isSome) := by
    intro k
    unfold getMatches
    rw [filter_insertionSort, filter_insertionSort, List.filter_filter, List.filter_filter]
    show List.insertionSort matchGE (db.eventMatches.filter _) =
      List.insertionSort matchGE ((l1 ++ l2).filter _)
    rw [hsplit, List.filter_append, List.filter_append]
    congr 1
    simp only [List.filter_cons]
    simp [hlookm]
  have halt : ∀ k : String, mapGet (buildAltMap db) k =
      mapGet (buildAltMap { db with eventMatches := l1 ++ l2 }) k := by
    intro k
    rw [mapGet_buildAltMap, mapGet_buildAltMap]
    rw [show lookupEventUrlSource { db with eventMatches := l1 ++ l2 } =
      lookupEventUrlSource db from rfl]
    rw [hgm k]
  have hdedup : getDeduplicatedEvents db db.events.length 0 =
      getDeduplicatedEvents { db with eventMatches := l1 ++ l2 }
        ({ db with eventMatches := l1 ++ l2 } : DB).events.length 0 := by
    rw [getDedup_full, getDedup_full]
    rw [show sortEvents ({ db with eventMatches := l1 ++ l2 } : DB).events =
      sortEvents db.events from rfl]
    apply filterMap_congr_mem
    intro e he
    have he' : e ∈ db.events := ((List.perm_insertionSort eventOrder db.events).mem_iff).mp he
    rw [hexcl e.eventId (hdangling e he'), halt e.eventId]
  constructor
  · show (getDeduplicatedEvents db db.events.length 0).map toDisplayRow =
      (getDeduplicatedEvents { db with eventMatches := l1 ++ l2 }
        ({ db with eventMatches := l1 ++ l2 } : DB).events.length 0).map toDisplayRow
    rw [hdedup]
  · show (getDeduplicatedEvents db db.events.length 0).length =
      (getDeduplicatedEvents { db with eventMatches := l1 ++ l2 }
        ({ db with eventMatches := l1 ++ l2 } : DB).events.length 0).length
    rw [hdedup]

/-- Witness: the fixture with a single dangling `high` edge rebuilds the
same display rows as without it. -/
theorem claim_C7_witness :
    exDB7.eventMatches = [] ++ mGhost :: [] ∧
      (mGhost.confidence = "high" ∨ mGhost.confidence = "medium") ∧
      (∀ e ∈ exDB7.events, e.eventId ≠ mGhost.eventId1) ∧
      (rebuildDisplayEvents exDB7).1.displayEvents =
        (rebuildDisplayEvents { exDB7 with eventMatches := [] ++ [] }).1.displayEvents :=
  ⟨rfl, Or.inl rfl, by decide,
    (claim_C7_dangling_edge exDB7 mGhost [] [] rfl (Or.inl rfl) (by decide)).1⟩

end Fargoings
